import Mathlib

/-!
# Verification of the home-ca certificate issuance core

Shallow embedding of `home_ca/certs.py` and `home_ca/__main__.py`:
keys, the self-signed root certificate, leaf (server) certificates and
chain files, persisted idempotently to a file system modelled as an
association list over structured paths.

Library calls of the `cryptography` package are modelled as free data:
an RSA key is its parameters plus a seed drawn from a counter-based
randomness supply (the idealisation of a cryptographically secure
generator: fresh draws are distinct); PEM serialisation is an injective
chunk encoding, so byte equality of files is equality of chunk lists.
Time is an integer count of days (`timedelta(days=n)` adds `n`).
-/

namespace HomeCA

/-- RSA private key: parameters as passed to `rsa.generate_private_key`,
plus the seed of the randomness draw that created it. -/
structure RSAPrivateKey where
  key_size : Nat
  public_exponent : Nat
  seed : Nat
deriving DecidableEq, Repr

/-- RSA public key, determined by the private key's parameters. -/
structure RSAPublicKey where
  key_size : Nat
  public_exponent : Nat
  seed : Nat
deriving DecidableEq, Repr

/-- `private_key.public_key()`. -/
def RSAPrivateKey.public_key (k : RSAPrivateKey) : RSAPublicKey :=
  ⟨k.key_size, k.public_exponent, k.seed⟩

/-- An IP address value (`ipaddress.IPv4Address` / `IPv6Address`). -/
inductive IPAddr where
  | v4 (a b c d : Nat)
  | v6 (n : Nat)
deriving DecidableEq, Repr

/-- An element of the `names` list passed to server-certificate issuance:
Python type `str | IPv4Address | IPv6Address`. -/
inductive StrOrIP where
  | str (s : String)
  | ip (a : IPAddr)
deriving DecidableEq, Repr

/-- X.509 distinguished name as built by `generate_name`. -/
structure Name where
  country : String
  state : String
  locality : String
  organization : String
  common_name : String
deriving DecidableEq, Repr

/-- A SAN entry (`x509.DNSName` / `x509.IPAddress`). -/
inductive GeneralName where
  | dnsName (s : String)
  | ipAddress (a : IPAddr)
deriving DecidableEq, Repr

/-- The nine `x509.KeyUsage` bits, in constructor-argument order. -/
structure KeyUsage where
  digital_signature : Bool
  content_commitment : Bool
  key_encipherment : Bool
  data_encipherment : Bool
  key_agreement : Bool
  key_cert_sign : Bool
  crl_sign : Bool
  encipher_only : Bool
  decipher_only : Bool
deriving DecidableEq, Repr

/-- An X.509 extension value as built by the code. -/
inductive ExtensionValue where
  | basicConstraints (ca : Bool) (path_length : Option Nat)
  | keyUsage (ku : KeyUsage)
  | subjectKeyIdentifier (key : RSAPublicKey)
  | subjectAlternativeName (general_names : List GeneralName)
deriving DecidableEq, Repr

/-- An extension together with its criticality flag. -/
structure Extension where
  value : ExtensionValue
  critical : Bool
deriving DecidableEq, Repr

/-- Signature hash algorithm (the code only uses `hashes.SHA256()`). -/
inductive HashAlg where
  | sha256
deriving DecidableEq, Repr

/-- An X.509 certificate as assembled by `x509.CertificateBuilder`.
`signed_with` records the private key passed to `.sign`; a signature
verifies against a public key exactly when it is that key's public part. -/
structure Certificate where
  subject : Name
  issuer : Name
  public_key : RSAPublicKey
  serial_number : Nat
  not_valid_before : Int
  not_valid_after : Int
  extensions : List Extension
  signed_with : RSAPrivateKey
  signature_hash : HashAlg
deriving DecidableEq, Repr

/-- The signature of `c` verifies against public key `pk`. -/
def Certificate.signatureVerifies (c : Certificate) (pk : RSAPublicKey) : Prop :=
  c.signed_with.public_key = pk

/-- A private key as returned by `serialization.load_pem_private_key`:
the code checks `isinstance(private_key, rsa.RSAPrivateKey)`, so the
model includes a non-RSA alternative. -/
inductive LoadedPrivateKey where
  | rsa (k : RSAPrivateKey)
  | ec (id : Nat)
deriving DecidableEq, Repr

/-- `serialization.Encoding`. -/
inductive Encoding where
  | PEM
  | DER
deriving DecidableEq, Repr

/-- `serialization.PrivateFormat`. -/
inductive PrivateFormat where
  | TraditionalOpenSSL
  | PKCS8
deriving DecidableEq, Repr

/-- Key encryption at serialisation time. -/
inductive Encryption where
  | NoEncryption
  | Encrypted (password : String)
deriving DecidableEq, Repr

/-- One serialised object; a file's bytes are a list of chunks, and the
encoding of each object into its chunk is injective by construction. -/
inductive Chunk where
  | privateKeyBytes (key : LoadedPrivateKey) (encoding : Encoding)
      (format : PrivateFormat) (encryption : Encryption)
  | certificateBytes (cert : Certificate) (encoding : Encoding)
deriving DecidableEq, Repr

/-- File contents. -/
abbrev Bytes := List Chunk

/-- Errors: `ValueError(msg)` raised by the code, parse failures raised
by the `cryptography` loaders, `IndexError` from `names[0]` on `[]`. -/
inductive Err where
  | valueError (msg : String)
  | parseFailure
  | indexError
deriving DecidableEq, Repr

/-- `private_key.private_bytes(...)`. -/
def private_bytes (k : RSAPrivateKey) (encoding : Encoding)
    (format : PrivateFormat) (encryption : Encryption) : Bytes :=
  [Chunk.privateKeyBytes (LoadedPrivateKey.rsa k) encoding format encryption]

/-- `serialization.load_pem_private_key(data, password=None)`: succeeds
on a single PEM-encoded, unencrypted private-key block. -/
def load_pem_private_key (b : Bytes) : Except Err LoadedPrivateKey :=
  match b with
  | [Chunk.privateKeyBytes k Encoding.PEM _ Encryption.NoEncryption] => Except.ok k
  | _ => Except.error Err.parseFailure

/-- `certificate.public_bytes(encoding)`. -/
def Certificate.public_bytes (c : Certificate) (encoding : Encoding) : Bytes :=
  [Chunk.certificateBytes c encoding]

/-- `x509.load_pem_x509_certificate(data)`. -/
def load_pem_x509_certificate (b : Bytes) : Except Err Certificate :=
  match b with
  | [Chunk.certificateBytes c Encoding.PEM] => Except.ok c
  | _ => Except.error Err.parseFailure

/-- The file extension of every artifact path the program builds:
`<base>.key.pem`, `<base>.cert.pem` or `<base>.chain.pem`. The three
string suffixes are pairwise non-overlapping, so this structured form
is an injective image of the concrete path strings. -/
inductive FileExt where
  | keyPem
  | certPem
  | chainPem
deriving DecidableEq, Repr

/-- A path `output_path / f'{base}.{ext}'`. -/
structure FsPath where
  dir : String
  base : String
  ext : FileExt
deriving DecidableEq, Repr

/-- The file system: an association list from paths to bytes; a write
prepends, and reads take the most recent entry. -/
abbrev FS := List (FsPath × Bytes)

/-- Read a file's bytes, `none` when the path does not exist. -/
def FS.read (fs : FS) (p : FsPath) : Option Bytes :=
  (fs.find? (fun e => decide (e.1 = p))).map (·.2)

/-- `path.exists()`. -/
def FS.pathExists (fs : FS) (p : FsPath) : Bool :=
  (fs.read p).isSome

/-- Write bytes to a path. -/
def FS.write (fs : FS) (p : FsPath) (b : Bytes) : FS :=
  (p, b) :: fs

/-- Randomness supply: a counter; each draw returns the counter and
advances it, so draws within a run are pairwise distinct. -/
structure Rng where
  ctr : Nat
deriving DecidableEq, Repr

/-- `rsa.generate_private_key(public_exponent=..., key_size=...)`. -/
def rsa_generate_private_key (public_exponent key_size : Nat) (rng : Rng) :
    RSAPrivateKey × Rng :=
  (⟨key_size, public_exponent, rng.ctr⟩, ⟨rng.ctr + 1⟩)

/-- `x509.random_serial_number()`. -/
def random_serial_number (rng : Rng) : Nat × Rng :=
  (rng.ctr, ⟨rng.ctr + 1⟩)

/-- The configured x509 name fields (`CONFIG.x509_name`). -/
structure X509Name where
  country : String
  state : String
  locality : String
  organization : String
deriving DecidableEq, Repr

/-- A configured host (`config.Host`); IP addresses are modelled already
parsed (`ip_address` applied by `main` is external parsing). -/
structure Host where
  names : List String
  ip_addresses : List IPAddr
deriving DecidableEq, Repr

/-- The configuration the core reads from `CONFIG`. -/
structure Config where
  output_path : String
  x509_name : X509Name
  domain : String
  hosts : List Host
deriving DecidableEq, Repr

/-- `CONFIG.ca_validity_days`: fixed constant 825. -/
def Config.ca_validity_days (_ : Config) : Nat := 825

/-- `CONFIG.server_validity_days`: fixed constant 398. -/
def Config.server_validity_days (_ : Config) : Nat := 398

/-! ## Operations (`certs.py`)

Each stateful operation takes and returns the file system and the
randomness supply, and produces `Except Err` for the value: a raised
exception propagates with the state unchanged from the point it was
raised (the code performs no write before any of its raises). -/

/-- `certs.generate_or_load_key(key_file)`. -/
def generate_or_load_key (fs : FS) (rng : Rng) (key_file : FsPath) :
    Except Err RSAPrivateKey × FS × Rng :=
  match fs.read key_file with
  | some data =>
    match load_pem_private_key data with
    | Except.ok (LoadedPrivateKey.rsa private_key) => (Except.ok private_key, fs, rng)
    | Except.ok _ => (Except.error (Err.valueError "Invalid key type"), fs, rng)
    | Except.error e => (Except.error e, fs, rng)
  | none =>
    let (private_key, rng₁) := rsa_generate_private_key 65537 2048 rng
    let fs₁ := fs.write key_file
      (private_bytes private_key Encoding.PEM PrivateFormat.TraditionalOpenSSL
        Encryption.NoEncryption)
    (Except.ok private_key, fs₁, rng₁)

/-- `certs.generate_name(common_name)`. -/
def generate_name (cfg : Config) (common_name : String) : Name :=
  { country := cfg.x509_name.country
    state := cfg.x509_name.state
    locality := cfg.x509_name.locality
    organization := cfg.x509_name.organization
    common_name := common_name }

/-- `certs.generate_or_load_ca_certificate(certificate_file, ca_key)`;
`now` is the value of `datetime.now(timezone.utc)` in days. -/
def generate_or_load_ca_certificate (cfg : Config) (fs : FS) (rng : Rng)
    (certificate_file : FsPath) (ca_key : RSAPrivateKey) (now : Int) :
    Except Err Certificate × FS × Rng :=
  match fs.read certificate_file with
  | some data =>
    match load_pem_x509_certificate data with
    | Except.ok c => (Except.ok c, fs, rng)
    | Except.error e => (Except.error e, fs, rng)
  | none =>
    let start_date := now
    let end_date := start_date + cfg.ca_validity_days
    let subject := generate_name cfg (cfg.x509_name.organization ++ " CA")
    let (serial, rng₁) := random_serial_number rng
    let certificate : Certificate :=
      { subject := subject
        issuer := subject
        public_key := ca_key.public_key
        serial_number := serial
        not_valid_before := start_date
        not_valid_after := end_date
        extensions :=
          [ ⟨ExtensionValue.basicConstraints true none, true⟩,
            ⟨ExtensionValue.keyUsage
              { digital_signature := true
                content_commitment := false
                key_encipherment := false
                data_encipherment := false
                key_agreement := false
                key_cert_sign := true
                crl_sign := true
                encipher_only := false
                decipher_only := false }, true⟩,
            ⟨ExtensionValue.subjectKeyIdentifier ca_key.public_key, false⟩ ]
        signed_with := ca_key
        signature_hash := HashAlg.sha256 }
    let fs₁ := fs.write certificate_file (certificate.public_bytes Encoding.PEM)
    (Except.ok certificate, fs₁, rng₁)

/-- The SAN conversion inside `generate_or_load_server_certificate`:
`x509.DNSName(name) if isinstance(name, str) else x509.IPAddress(name)`. -/
def to_x509_name (n : StrOrIP) : GeneralName :=
  match n with
  | StrOrIP.str s => GeneralName.dnsName s
  | StrOrIP.ip a => GeneralName.ipAddress a

/-- `certs.generate_or_load_server_certificate(certificate_file,
root_cert, root_key, host_key, names)`. -/
def generate_or_load_server_certificate (cfg : Config) (fs : FS) (rng : Rng)
    (certificate_file : FsPath) (root_cert : Certificate)
    (root_key host_key : RSAPrivateKey) (names : List StrOrIP) (now : Int) :
    Except Err Certificate × FS × Rng :=
  match fs.read certificate_file with
  | some data =>
    match load_pem_x509_certificate data with
    | Except.ok c => (Except.ok c, fs, rng)
    | Except.error e => (Except.error e, fs, rng)
  | none =>
    let start_date := now
    let end_date := start_date + cfg.server_validity_days
    match names.head? with
    | none => (Except.error Err.indexError, fs, rng)
    | some (StrOrIP.ip _) =>
      (Except.error (Err.valueError "First name must be a string not an IP address"), fs, rng)
    | some (StrOrIP.str first_name) =>
      let subject := generate_name cfg first_name
      let x509_names := names.map to_x509_name
      let (serial, rng₁) := random_serial_number rng
      let host_cert : Certificate :=
        { subject := subject
          issuer := root_cert.subject
          public_key := host_key.public_key
          serial_number := serial
          not_valid_before := start_date
          not_valid_after := end_date
          extensions := [⟨ExtensionValue.subjectAlternativeName x509_names, false⟩]
          signed_with := root_key
          signature_hash := HashAlg.sha256 }
      let fs₁ := fs.write certificate_file (host_cert.public_bytes Encoding.PEM)
      (Except.ok host_cert, fs₁, rng₁)

/-- `certs.serialize_certificate(cert)`. -/
def serialize_certificate (cert : Certificate) : Bytes :=
  cert.public_bytes Encoding.PEM

/-! ## Orchestrator (`__main__.py`) -/

/-- The chain-file step of `main` (lines 31–36): write the root
certificate's bytes followed by the host certificate's bytes, only when
the chain path is absent. -/
def write_chain_file (fs : FS) (chain_file : FsPath)
    (ca_cert host_cert : Certificate) : FS :=
  if fs.pathExists chain_file then fs
  else fs.write chain_file
    (serialize_certificate ca_cert ++ serialize_certificate host_cert)

/-- One iteration of `main`'s host loop; returns the host's primary name
and the certificate the iteration produced. -/
def process_host (cfg : Config) (ca_key : RSAPrivateKey) (ca_cert : Certificate)
    (fs : FS) (rng : Rng) (now : Int) (host : Host) :
    Except Err (String × Certificate) × FS × Rng :=
  match host.names.head? with
  | none => (Except.error Err.indexError, fs, rng)
  | some name =>
    let names : List StrOrIP :=
      host.names.map (fun n => StrOrIP.str (n ++ "." ++ cfg.domain))
        ++ host.ip_addresses.map StrOrIP.ip
    match generate_or_load_key fs rng ⟨cfg.output_path, name, FileExt.keyPem⟩ with
    | (Except.error e, fs₁, rng₁) => (Except.error e, fs₁, rng₁)
    | (Except.ok host_key, fs₁, rng₁) =>
      match generate_or_load_server_certificate cfg fs₁ rng₁
          ⟨cfg.output_path, name, FileExt.certPem⟩ ca_cert ca_key host_key names now with
      | (Except.error e, fs₂, rng₂) => (Except.error e, fs₂, rng₂)
      | (Except.ok host_cert, fs₂, rng₂) =>
        let fs₃ := write_chain_file fs₂ ⟨cfg.output_path, name, FileExt.chainPem⟩
          ca_cert host_cert
        (Except.ok (name, host_cert), fs₃, rng₂)

/-- `main`'s host loop, also returning the trace of per-host results. -/
def main_loop (cfg : Config) (ca_key : RSAPrivateKey) (ca_cert : Certificate) :
    List Host → FS → Rng → Int →
    Except Err Unit × FS × Rng × List (String × Certificate)
  | [], fs, rng, _ => (Except.ok (), fs, rng, [])
  | host :: rest, fs, rng, now =>
    match process_host cfg ca_key ca_cert fs rng now host with
    | (Except.error e, fs₁, rng₁) => (Except.error e, fs₁, rng₁, [])
    | (Except.ok entry, fs₁, rng₁) =>
      match main_loop cfg ca_key ca_cert rest fs₁ rng₁ now with
      | (r, fs₂, rng₂, trace) => (r, fs₂, rng₂, entry :: trace)

/-- `__main__.main()`: obtain the root key and root certificate, then
process every configured host in order. Directory creation is not
modelled (paths are structured values). -/
def main (cfg : Config) (fs : FS) (rng : Rng) (now : Int) :
    Except Err Unit × FS × Rng × List (String × Certificate) :=
  match generate_or_load_key fs rng ⟨cfg.output_path, "ca", FileExt.keyPem⟩ with
  | (Except.error e, fs₁, rng₁) => (Except.error e, fs₁, rng₁, [])
  | (Except.ok ca_key, fs₁, rng₁) =>
    match generate_or_load_ca_certificate cfg fs₁ rng₁
        ⟨cfg.output_path, "ca", FileExt.certPem⟩ ca_key now with
    | (Except.error e, fs₂, rng₂) => (Except.error e, fs₂, rng₂, [])
    | (Except.ok ca_cert, fs₂, rng₂) =>
      main_loop cfg ca_key ca_cert cfg.hosts fs₂ rng₂ now

/-- A certificate carries a CA extension (`BasicConstraints` with
`ca=True`). -/
def has_ca_extension (c : Certificate) : Bool :=
  c.extensions.any (fun e =>
    match e.value with
    | ExtensionValue.basicConstraints true _ => true
    | _ => false)

/-- The key written when the path is absent. -/
def fresh_key (rng : Rng) : RSAPrivateKey := ⟨2048, 65537, rng.ctr⟩

/-- The root certificate built when the path is absent. -/
def ca_certificate_body (cfg : Config) (ca_key : RSAPrivateKey)
    (serial : Nat) (now : Int) : Certificate :=
  { subject := generate_name cfg (cfg.x509_name.organization ++ " CA")
    issuer := generate_name cfg (cfg.x509_name.organization ++ " CA")
    public_key := ca_key.public_key
    serial_number := serial
    not_valid_before := now
    not_valid_after := now + 825
    extensions :=
      [ ⟨ExtensionValue.basicConstraints true none, true⟩,
        ⟨ExtensionValue.keyUsage ⟨true, false, false, false, false, true, true, false, false⟩,
          true⟩,
        ⟨ExtensionValue.subjectKeyIdentifier ca_key.public_key, false⟩ ]
    signed_with := ca_key
    signature_hash := HashAlg.sha256 }

/-- The server certificate built when the path is absent and the first
name is the string `first_name`. -/
def host_certificate_body (cfg : Config) (root_cert : Certificate)
    (root_key host_key : RSAPrivateKey) (names : List StrOrIP)
    (first_name : String) (serial : Nat) (now : Int) : Certificate :=
  { subject := generate_name cfg first_name
    issuer := root_cert.subject
    public_key := host_key.public_key
    serial_number := serial
    not_valid_before := now
    not_valid_after := now + 398
    extensions := [⟨ExtensionValue.subjectAlternativeName (names.map to_x509_name), false⟩]
    signed_with := root_key
    signature_hash := HashAlg.sha256 }

/-- The properties every non-colliding leaf certificate of a run has
relative to the root certificate. -/
def good_leaf (ca_cert c : Certificate) : Prop :=
  c.issuer = ca_cert.subject ∧ c.public_key ≠ ca_cert.public_key ∧
    has_ca_extension c = false

/-- Invariant holding after the root phase of a run started on an empty
output directory: the root artifacts are stored at base name `"ca"`, the
randomness counter has moved past the root key's seed, every other
stored key is an RSA key whose seed differs from the root key's, and
every other stored certificate is a good leaf. -/
def RootInv (cfg : Config) (ca_key : RSAPrivateKey) (ca_cert : Certificate)
    (fs : FS) (rng : Rng) : Prop :=
  ca_key.seed < rng.ctr ∧
  ca_cert.public_key = ca_key.public_key ∧
  fs.read ⟨cfg.output_path, "ca", FileExt.keyPem⟩ =
    some (private_bytes ca_key Encoding.PEM PrivateFormat.TraditionalOpenSSL
      Encryption.NoEncryption) ∧
  fs.read ⟨cfg.output_path, "ca", FileExt.certPem⟩ =
    some (serialize_certificate ca_cert) ∧
  (∀ base b, base ≠ "ca" →
    fs.read ⟨cfg.output_path, base, FileExt.keyPem⟩ = some b →
    ∃ k : RSAPrivateKey,
      b = private_bytes k Encoding.PEM PrivateFormat.TraditionalOpenSSL
        Encryption.NoEncryption ∧ k.seed ≠ ca_key.seed) ∧
  (∀ base b, base ≠ "ca" →
    fs.read ⟨cfg.output_path, base, FileExt.certPem⟩ = some b →
    ∃ c : Certificate, b = serialize_certificate c ∧ good_leaf ca_cert c)

/-! ## Concrete fixtures for witnesses and counterexamples -/

/-- Placeholder certificate for list extraction defaults. -/
def dummy_certificate : Certificate :=
  { subject := ⟨"", "", "", "", ""⟩
    issuer := ⟨"", "", "", "", ""⟩
    public_key := ⟨0, 0, 0⟩
    serial_number := 0
    not_valid_before := 0
    not_valid_after := 0
    extensions := []
    signed_with := ⟨0, 0, 0⟩
    signature_hash := HashAlg.sha256 }

/-- The spec's leaf-linkage scenario: organization "Home", domain
"example.com", one host with names `["foo", "foo-alt"]` and IP
`10.0.0.5`. -/
def cfgFoo : Config :=
  { output_path := "certificates"
    x509_name := ⟨"GB", "London", "London", "Home"⟩
    domain := "example.com"
    hosts := [⟨["foo", "foo-alt"], [IPAddr.v4 10 0 0 5]⟩] }

/-- The run of the orchestrator on the leaf-linkage scenario, from an
empty output directory. -/
def fooRun : Except Err Unit × FS × Rng × List (String × Certificate) :=
  main cfgFoo [] ⟨0⟩ 0

/-- The leaf certificate that run produces. -/
def fooLeaf : Certificate := (fooRun.2.2.2.getD 0 ("", dummy_certificate)).2

/-- The root certificate stored at `ca.cert.pem` after that run. -/
def fooRoot : Certificate :=
  match fooRun.2.1.read ⟨"certificates", "ca", FileExt.certPem⟩ with
  | some [Chunk.certificateBytes c _] => c
  | _ => dummy_certificate

/-- Key path for the idempotence witness. -/
def pKeyW : FsPath := ⟨"certificates", "w", FileExt.keyPem⟩

/-- Certificate path for the idempotence witness. -/
def pCertW : FsPath := ⟨"certificates", "w", FileExt.certPem⟩

/-- Chain path for the idempotence witness. -/
def pChainW : FsPath := ⟨"certificates", "w", FileExt.chainPem⟩

/-- A concrete RSA key. -/
def keyW : RSAPrivateKey := ⟨2048, 65537, 42⟩

/-- A file system already holding `keyW` at `pKeyW`. -/
def fsKeyW : FS :=
  FS.write [] pKeyW (private_bytes keyW Encoding.PEM
    PrivateFormat.TraditionalOpenSSL Encryption.NoEncryption)

/-- The file system after a fresh key generation at `pKeyW`. -/
def fsKeyGen : FS :=
  FS.write [] pKeyW (private_bytes (fresh_key ⟨0⟩) Encoding.PEM
    PrivateFormat.TraditionalOpenSSL Encryption.NoEncryption)

/-- A concrete root certificate. -/
def certW : Certificate := ca_certificate_body cfgFoo keyW 7 0

/-- A file system already holding `certW` at `pCertW`. -/
def fsCertW : FS := FS.write [] pCertW (serialize_certificate certW)

/-- The root certificate of a fresh generation from counter 0. -/
def caGenW : Certificate := ca_certificate_body cfgFoo keyW 0 0

/-- The file system after that fresh root-certificate generation. -/
def fsCertGen : FS := FS.write [] pCertW (serialize_certificate caGenW)

/-- The leaf certificate of a fresh issuance from counter 0. -/
def hostGenW : Certificate :=
  host_certificate_body cfgFoo certW keyW keyW [StrOrIP.str "w.example.com"]
    "w.example.com" 0 0

/-- The file system after that fresh leaf issuance. -/
def fsHostGen : FS := FS.write [] pCertW (serialize_certificate hostGenW)

/-- A file system already holding a chain file at `pChainW`. -/
def fsChainGen : FS :=
  FS.write [] pChainW (serialize_certificate certW ++ serialize_certificate hostGenW)

/-- A stored non-RSA key file. -/
def fsECKey : FS :=
  FS.write [] pKeyW [Chunk.privateKeyBytes (LoadedPrivateKey.ec 3) Encoding.PEM
    PrivateFormat.TraditionalOpenSSL Encryption.NoEncryption]

/-- A stored RSA key with a small modulus and exponent. -/
def keyWeak : RSAPrivateKey := ⟨1024, 3, 8⟩

/-- A file system holding that weak RSA key. -/
def fsWeakKey : FS :=
  FS.write [] pKeyW (private_bytes keyWeak Encoding.PEM
    PrivateFormat.TraditionalOpenSSL Encryption.NoEncryption)

/-- A configuration whose single host's primary name is "ca", colliding
with the root artifacts' base name. -/
def cfgCAHost : Config :=
  { output_path := "certificates"
    x509_name := ⟨"GB", "London", "London", "Home"⟩
    domain := "local"
    hosts := [⟨["ca"], []⟩] }

/-- The run of the orchestrator on that configuration, from an empty
output directory. -/
def caHostRun : Except Err Unit × FS × Rng × List (String × Certificate) :=
  main cfgCAHost [] ⟨0⟩ 0

/-- The certificate that run produces for the host named "ca". -/
def caHostLeaf : Certificate := (caHostRun.2.2.2.getD 0 ("", dummy_certificate)).2

/-- The root certificate stored at `ca.cert.pem` after that run. -/
def caHostRoot : Certificate :=
  match caHostRun.2.1.read ⟨"certificates", "ca", FileExt.certPem⟩ with
  | some [Chunk.certificateBytes c _] => c
  | _ => dummy_certificate

/-! ## File-system lemmas -/

theorem FS.read_write_self (fs : FS) (p : FsPath) (b : Bytes) :
    (fs.write p b).read p = some b := by
  simp [FS.write, FS.read, List.find?]

theorem FS.read_write_ne (fs : FS) (p q : FsPath) (b : Bytes) (h : q ≠ p) :
    (fs.write p b).read q = fs.read q := by
  simp [FS.write, FS.read, List.find?, (Ne.symm h : p ≠ q)]

theorem FS.pathExists_write_self (fs : FS) (p : FsPath) (b : Bytes) :
    (fs.write p b).pathExists p = true := by
  simp [FS.pathExists, FS.read_write_self]

theorem FS.read_nil (p : FsPath) : FS.read [] p = none := rfl

theorem FS.pathExists_false (fs : FS) (p : FsPath) (h : fs.pathExists p = false) :
    fs.read p = none := by
  rw [FS.pathExists] at h
  cases hr : fs.read p with
  | none => rfl
  | some d => rw [hr] at h; exact absurd h (by simp)

/-! ## Characterisation of the operations -/

theorem generate_or_load_key_absent (fs : FS) (rng : Rng) (p : FsPath)
    (h : fs.read p = none) :
    generate_or_load_key fs rng p =
      (Except.ok (fresh_key rng),
       fs.write p (private_bytes (fresh_key rng) Encoding.PEM
         PrivateFormat.TraditionalOpenSSL Encryption.NoEncryption),
       ⟨rng.ctr + 1⟩) := by
  simp [generate_or_load_key, h, rsa_generate_private_key, fresh_key]

theorem generate_or_load_key_rsa (fs : FS) (rng : Rng) (p : FsPath)
    (k : RSAPrivateKey) (fmt : PrivateFormat)
    (h : fs.read p = some [Chunk.privateKeyBytes (LoadedPrivateKey.rsa k)
      Encoding.PEM fmt Encryption.NoEncryption]) :
    generate_or_load_key fs rng p = (Except.ok k, fs, rng) := by
  simp [generate_or_load_key, h, load_pem_private_key]

theorem generate_or_load_key_non_rsa (fs : FS) (rng : Rng) (p : FsPath)
    (i : Nat) (fmt : PrivateFormat)
    (h : fs.read p = some [Chunk.privateKeyBytes (LoadedPrivateKey.ec i)
      Encoding.PEM fmt Encryption.NoEncryption]) :
    generate_or_load_key fs rng p =
      (Except.error (Err.valueError "Invalid key type"), fs, rng) := by
  simp [generate_or_load_key, h, load_pem_private_key]

theorem generate_or_load_key_present (fs : FS) (rng : Rng) (p : FsPath)
    (h : fs.pathExists p = true) :
    (generate_or_load_key fs rng p).2 = (fs, rng) := by
  rw [FS.pathExists, Option.isSome_iff_exists] at h
  obtain ⟨data, hdata⟩ := h
  simp only [generate_or_load_key, hdata]
  cases load_pem_private_key data with
  | ok k => cases k <;> rfl
  | error e => rfl

theorem generate_or_load_ca_certificate_absent (cfg : Config) (fs : FS)
    (rng : Rng) (p : FsPath) (ca_key : RSAPrivateKey) (now : Int)
    (h : fs.read p = none) :
    generate_or_load_ca_certificate cfg fs rng p ca_key now =
      (Except.ok (ca_certificate_body cfg ca_key rng.ctr now),
       fs.write p ((ca_certificate_body cfg ca_key rng.ctr now).public_bytes Encoding.PEM),
       ⟨rng.ctr + 1⟩) := by
  simp [generate_or_load_ca_certificate, h, random_serial_number,
    ca_certificate_body, Config.ca_validity_days]

theorem generate_or_load_ca_certificate_stored (cfg : Config) (fs : FS)
    (rng : Rng) (p : FsPath) (ca_key : RSAPrivateKey) (now : Int) (c : Certificate)
    (h : fs.read p = some [Chunk.certificateBytes c Encoding.PEM]) :
    generate_or_load_ca_certificate cfg fs rng p ca_key now = (Except.ok c, fs, rng) := by
  simp [generate_or_load_ca_certificate, h, load_pem_x509_certificate]

theorem generate_or_load_ca_certificate_present (cfg : Config) (fs : FS)
    (rng : Rng) (p : FsPath) (ca_key : RSAPrivateKey) (now : Int)
    (h : fs.pathExists p = true) :
    (generate_or_load_ca_certificate cfg fs rng p ca_key now).2 = (fs, rng) := by
  rw [FS.pathExists, Option.isSome_iff_exists] at h
  obtain ⟨data, hdata⟩ := h
  simp only [generate_or_load_ca_certificate, hdata]
  cases load_pem_x509_certificate data <;> rfl

theorem generate_or_load_server_certificate_absent (cfg : Config) (fs : FS)
    (rng : Rng) (p : FsPath) (root_cert : Certificate)
    (root_key host_key : RSAPrivateKey) (first_name : String)
    (rest : List StrOrIP) (now : Int)
    (h : fs.read p = none) :
    generate_or_load_server_certificate cfg fs rng p root_cert root_key host_key
        (StrOrIP.str first_name :: rest) now =
      (Except.ok (host_certificate_body cfg root_cert root_key host_key
          (StrOrIP.str first_name :: rest) first_name rng.ctr now),
       fs.write p ((host_certificate_body cfg root_cert root_key host_key
          (StrOrIP.str first_name :: rest) first_name rng.ctr now).public_bytes Encoding.PEM),
       ⟨rng.ctr + 1⟩) := by
  simp [generate_or_load_server_certificate, h, random_serial_number,
    host_certificate_body, Config.server_validity_days]

theorem generate_or_load_server_certificate_ip_first (cfg : Config) (fs : FS)
    (rng : Rng) (p : FsPath) (root_cert : Certificate)
    (root_key host_key : RSAPrivateKey) (a : IPAddr) (rest : List StrOrIP) (now : Int)
    (h : fs.read p = none) :
    generate_or_load_server_certificate cfg fs rng p root_cert root_key host_key
        (StrOrIP.ip a :: rest) now =
      (Except.error (Err.valueError "First name must be a string not an IP address"),
       fs, rng) := by
  simp [generate_or_load_server_certificate, h]

theorem generate_or_load_server_certificate_stored (cfg : Config) (fs : FS)
    (rng : Rng) (p : FsPath) (root_cert : Certificate)
    (root_key host_key : RSAPrivateKey) (names : List StrOrIP) (now : Int)
    (c : Certificate)
    (h : fs.read p = some [Chunk.certificateBytes c Encoding.PEM]) :
    generate_or_load_server_certificate cfg fs rng p root_cert root_key host_key
        names now = (Except.ok c, fs, rng) := by
  simp [generate_or_load_server_certificate, h, load_pem_x509_certificate]

theorem generate_or_load_server_certificate_present (cfg : Config) (fs : FS)
    (rng : Rng) (p : FsPath) (root_cert : Certificate)
    (root_key host_key : RSAPrivateKey) (names : List StrOrIP) (now : Int)
    (h : fs.pathExists p = true) :
    (generate_or_load_server_certificate cfg fs rng p root_cert root_key host_key
        names now).2 = (fs, rng) := by
  rw [FS.pathExists, Option.isSome_iff_exists] at h
  obtain ⟨data, hdata⟩ := h
  simp only [generate_or_load_server_certificate, hdata]
  cases load_pem_x509_certificate data <;> rfl

theorem write_chain_file_present (fs : FS) (p : FsPath) (c h : Certificate)
    (hp : fs.pathExists p = true) :
    write_chain_file fs p c h = fs := by
  simp [write_chain_file, hp]

theorem write_chain_file_absent (fs : FS) (p : FsPath) (c h : Certificate)
    (hp : fs.pathExists p = false) :
    write_chain_file fs p c h =
      fs.write p (serialize_certificate c ++ serialize_certificate h) := by
  simp [write_chain_file, hp]

/-! ## Existing files are never rewritten -/

theorem write_absent_preserves (fs : FS) (p q : FsPath) (b c : Bytes)
    (hp : fs.read p = none) (hq : fs.read q = some b) :
    (fs.write p c).read q = some b := by
  rw [FS.read_write_ne fs p q c (fun he => by rw [he, hp] at hq; exact Option.noConfusion hq)]
  exact hq

theorem generate_or_load_key_preserves (fs : FS) (rng : Rng) (p q : FsPath)
    (b : Bytes) (hq : fs.read q = some b) :
    ((generate_or_load_key fs rng p).2.1).read q = some b := by
  cases hp : fs.read p with
  | some data =>
    have h2 := generate_or_load_key_present fs rng p (by simp [FS.pathExists, hp])
    rw [show (generate_or_load_key fs rng p).2.1 = fs from congrArg Prod.fst h2]
    exact hq
  | none =>
    rw [generate_or_load_key_absent fs rng p hp]
    exact write_absent_preserves fs p q b _ hp hq

theorem generate_or_load_ca_certificate_preserves (cfg : Config) (fs : FS)
    (rng : Rng) (p q : FsPath) (ca_key : RSAPrivateKey) (now : Int)
    (b : Bytes) (hq : fs.read q = some b) :
    ((generate_or_load_ca_certificate cfg fs rng p ca_key now).2.1).read q = some b := by
  cases hp : fs.read p with
  | some data =>
    have h2 := generate_or_load_ca_certificate_present cfg fs rng p ca_key now
      (by simp [FS.pathExists, hp])
    rw [show (generate_or_load_ca_certificate cfg fs rng p ca_key now).2.1 = fs from
      congrArg Prod.fst h2]
    exact hq
  | none =>
    rw [generate_or_load_ca_certificate_absent cfg fs rng p ca_key now hp]
    exact write_absent_preserves fs p q b _ hp hq

theorem generate_or_load_server_certificate_preserves (cfg : Config) (fs : FS)
    (rng : Rng) (p q : FsPath) (root_cert : Certificate)
    (root_key host_key : RSAPrivateKey) (names : List StrOrIP) (now : Int)
    (b : Bytes) (hq : fs.read q = some b) :
    ((generate_or_load_server_certificate cfg fs rng p root_cert root_key host_key
        names now).2.1).read q = some b := by
  cases hp : fs.read p with
  | some data =>
    have h2 := generate_or_load_server_certificate_present cfg fs rng p root_cert
      root_key host_key names now (by simp [FS.pathExists, hp])
    rw [show (generate_or_load_server_certificate cfg fs rng p root_cert root_key
      host_key names now).2.1 = fs from congrArg Prod.fst h2]
    exact hq
  | none =>
    simp only [generate_or_load_server_certificate, hp]
    cases names.head? with
    | none => exact hq
    | some n0 =>
      cases n0 with
      | ip a => exact hq
      | str s => exact write_absent_preserves fs p q b _ hp hq

theorem write_chain_file_preserves (fs : FS) (p q : FsPath)
    (c h : Certificate) (b : Bytes) (hq : fs.read q = some b) :
    (write_chain_file fs p c h).read q = some b := by
  cases hp : fs.pathExists p with
  | true => rw [write_chain_file_present fs p c h hp]; exact hq
  | false =>
    rw [write_chain_file_absent fs p c h hp]
    exact write_absent_preserves fs p q b _ (FS.pathExists_false fs p hp) hq

theorem process_host_preserves (cfg : Config) (ca_key : RSAPrivateKey)
    (ca_cert : Certificate) (fs : FS) (rng : Rng) (now : Int) (host : Host)
    (q : FsPath) (b : Bytes) (hq : fs.read q = some b) :
    ((process_host cfg ca_key ca_cert fs rng now host).2.1).read q = some b := by
  unfold process_host
  cases host.names.head? with
  | none => exact hq
  | some name =>
    simp only
    rcases hk : generate_or_load_key fs rng ⟨cfg.output_path, name, FileExt.keyPem⟩
      with ⟨rk, fs₁, rng₁⟩
    have hq₁ : fs₁.read q = some b := by
      have := generate_or_load_key_preserves fs rng
        ⟨cfg.output_path, name, FileExt.keyPem⟩ q b hq
      rwa [hk] at this
    cases rk with
    | error e => exact hq₁
    | ok host_key =>
      simp only
      rcases hc : generate_or_load_server_certificate cfg fs₁ rng₁
          ⟨cfg.output_path, name, FileExt.certPem⟩ ca_cert ca_key host_key
          (host.names.map (fun n => StrOrIP.str (n ++ "." ++ cfg.domain))
            ++ host.ip_addresses.map StrOrIP.ip) now
        with ⟨rc, fs₂, rng₂⟩
      have hq₂ : fs₂.read q = some b := by
        have := generate_or_load_server_certificate_preserves cfg fs₁ rng₁
          ⟨cfg.output_path, name, FileExt.certPem⟩ q ca_cert ca_key host_key
          (host.names.map (fun n => StrOrIP.str (n ++ "." ++ cfg.domain))
            ++ host.ip_addresses.map StrOrIP.ip) now b hq₁
        rwa [hc] at this
      cases rc with
      | error e => exact hq₂
      | ok host_cert =>
        exact write_chain_file_preserves fs₂
          ⟨cfg.output_path, name, FileExt.chainPem⟩ q ca_cert host_cert b hq₂

theorem main_loop_preserves (cfg : Config) (ca_key : RSAPrivateKey)
    (ca_cert : Certificate) (hosts : List Host) (fs : FS) (rng : Rng) (now : Int)
    (q : FsPath) (b : Bytes) (hq : fs.read q = some b) :
    ((main_loop cfg ca_key ca_cert hosts fs rng now).2.1).read q = some b := by
  induction hosts generalizing fs rng with
  | nil => exact hq
  | cons host rest ih =>
    unfold main_loop
    rcases hp : process_host cfg ca_key ca_cert fs rng now host with ⟨r, fs₁, rng₁⟩
    have hq₁ : fs₁.read q = some b := by
      have := process_host_preserves cfg ca_key ca_cert fs rng now host q b hq
      rwa [hp] at this
    cases r with
    | error e => exact hq₁
    | ok entry =>
      simp only
      rcases hl : main_loop cfg ca_key ca_cert rest fs₁ rng₁ now with ⟨r₂, fs₂, rng₂, trace⟩
      have := ih fs₁ rng₁ hq₁
      rw [hl] at this
      exact this

theorem main_preserves (cfg : Config) (fs : FS) (rng : Rng) (now : Int)
    (q : FsPath) (b : Bytes) (hq : fs.read q = some b) :
    ((main cfg fs rng now).2.1).read q = some b := by
  unfold main
  rcases hk : generate_or_load_key fs rng ⟨cfg.output_path, "ca", FileExt.keyPem⟩
    with ⟨rk, fs₁, rng₁⟩
  have hq₁ : fs₁.read q = some b := by
    have := generate_or_load_key_preserves fs rng
      ⟨cfg.output_path, "ca", FileExt.keyPem⟩ q b hq
    rwa [hk] at this
  cases rk with
  | error e => exact hq₁
  | ok ca_key =>
    simp only
    rcases hc : generate_or_load_ca_certificate cfg fs₁ rng₁
        ⟨cfg.output_path, "ca", FileExt.certPem⟩ ca_key now with ⟨rc, fs₂, rng₂⟩
    have hq₂ : fs₂.read q = some b := by
      have := generate_or_load_ca_certificate_preserves cfg fs₁ rng₁
        ⟨cfg.output_path, "ca", FileExt.certPem⟩ q ca_key now b hq₁
      rwa [hc] at this
    cases rc with
    | error e => exact hq₂
    | ok ca_cert => exact main_loop_preserves cfg ca_key ca_cert cfg.hosts fs₂ rng₂ now q b hq₂

/-! ## Run invariant: leaf certificates produced by the orchestrator -/

theorem FsPath.ne_of_base {d₁ d₂ b₁ b₂ : String} {e₁ e₂ : FileExt} (h : b₁ ≠ b₂) :
    (⟨d₁, b₁, e₁⟩ : FsPath) ≠ ⟨d₂, b₂, e₂⟩ :=
  fun he => h (congrArg FsPath.base he)

theorem FsPath.ne_of_ext {d₁ d₂ b₁ b₂ : String} {e₁ e₂ : FileExt} (h : e₁ ≠ e₂) :
    (⟨d₁, b₁, e₁⟩ : FsPath) ≠ ⟨d₂, b₂, e₂⟩ :=
  fun he => h (congrArg FsPath.ext he)

theorem public_key_ne_of_seed_ne (k j : RSAPrivateKey) (h : k.seed ≠ j.seed) :
    k.public_key ≠ j.public_key :=
  fun he => h (congrArg RSAPublicKey.seed he)

theorem generate_or_load_key_inv (cfg : Config) (ca_key : RSAPrivateKey)
    (ca_cert : Certificate) (fs : FS) (rng : Rng) (name : String)
    (hinv : RootInv cfg ca_key ca_cert fs rng) :
    RootInv cfg ca_key ca_cert
      (generate_or_load_key fs rng ⟨cfg.output_path, name, FileExt.keyPem⟩).2.1
      (generate_or_load_key fs rng ⟨cfg.output_path, name, FileExt.keyPem⟩).2.2 ∧
    ∀ k, (generate_or_load_key fs rng ⟨cfg.output_path, name, FileExt.keyPem⟩).1
      = Except.ok k → name ≠ "ca" → k.seed ≠ ca_key.seed := by
  obtain ⟨h1, h2, h3, h4, h5, h6⟩ := hinv
  by_cases hname : name = "ca"
  · subst hname
    rw [generate_or_load_key_rsa fs rng _ ca_key _ h3]
    exact ⟨⟨h1, h2, h3, h4, h5, h6⟩, fun k hk hne => absurd rfl hne⟩
  · cases hr : fs.read ⟨cfg.output_path, name, FileExt.keyPem⟩ with
    | some b =>
      obtain ⟨k, hb, hseed⟩ := h5 name b hname hr
      subst hb
      rw [generate_or_load_key_rsa fs rng _ k _ hr]
      exact ⟨⟨h1, h2, h3, h4, h5, h6⟩, fun j hj _ => by
        injection hj with hj; exact hj ▸ hseed⟩
    | none =>
      rw [generate_or_load_key_absent fs rng _ hr]
      refine ⟨⟨Nat.lt_succ_of_lt h1, h2, ?_, ?_, ?_, ?_⟩, ?_⟩
      · rw [FS.read_write_ne _ _ _ _ (FsPath.ne_of_base (fun he => hname he.symm))]
        exact h3
      · rw [FS.read_write_ne _ _ _ _ (FsPath.ne_of_base (fun he => hname he.symm))]
        exact h4
      · intro base b hbase hread
        by_cases hbq : base = name
        · subst hbq
          rw [FS.read_write_self] at hread
          injection hread with hread
          exact ⟨fresh_key rng, hread.symm, (Nat.ne_of_lt h1).symm⟩
        · rw [FS.read_write_ne _ _ _ _ (FsPath.ne_of_base hbq)] at hread
          exact h5 base b hbase hread
      · intro base b hbase hread
        rw [FS.read_write_ne _ _ _ _ (FsPath.ne_of_ext (by simp))] at hread
        exact h6 base b hbase hread
      · intro k hk _
        injection hk with hk
        rw [← hk]
        exact (Nat.ne_of_lt h1).symm

theorem generate_or_load_server_certificate_inv (cfg : Config)
    (ca_key : RSAPrivateKey) (ca_cert : Certificate) (fs : FS) (rng : Rng)
    (now : Int) (name first_name : String) (host_key : RSAPrivateKey)
    (rest : List StrOrIP)
    (hinv : RootInv cfg ca_key ca_cert fs rng)
    (hk : name ≠ "ca" → host_key.seed ≠ ca_key.seed) :
    RootInv cfg ca_key ca_cert
      (generate_or_load_server_certificate cfg fs rng
        ⟨cfg.output_path, name, FileExt.certPem⟩ ca_cert ca_key host_key
        (StrOrIP.str first_name :: rest) now).2.1
      (generate_or_load_server_certificate cfg fs rng
        ⟨cfg.output_path, name, FileExt.certPem⟩ ca_cert ca_key host_key
        (StrOrIP.str first_name :: rest) now).2.2 ∧
    ∀ c, (generate_or_load_server_certificate cfg fs rng
        ⟨cfg.output_path, name, FileExt.certPem⟩ ca_cert ca_key host_key
        (StrOrIP.str first_name :: rest) now).1 = Except.ok c →
      name ≠ "ca" → good_leaf ca_cert c := by
  obtain ⟨h1, h2, h3, h4, h5, h6⟩ := hinv
  by_cases hname : name = "ca"
  · subst hname
    rw [generate_or_load_server_certificate_stored cfg fs rng _ ca_cert ca_key
      host_key _ now ca_cert h4]
    exact ⟨⟨h1, h2, h3, h4, h5, h6⟩, fun c hc hne => absurd rfl hne⟩
  · cases hr : fs.read ⟨cfg.output_path, name, FileExt.certPem⟩ with
    | some b =>
      obtain ⟨c, hb, hgood⟩ := h6 name b hname hr
      subst hb
      rw [generate_or_load_server_certificate_stored cfg fs rng _ ca_cert ca_key
        host_key _ now c hr]
      exact ⟨⟨h1, h2, h3, h4, h5, h6⟩, fun j hj _ => by
        injection hj with hj; exact hj ▸ hgood⟩
    | none =>
      rw [generate_or_load_server_certificate_absent cfg fs rng _ ca_cert ca_key
        host_key first_name rest now hr]
      have hgood : good_leaf ca_cert (host_certificate_body cfg ca_cert ca_key
          host_key (StrOrIP.str first_name :: rest) first_name rng.ctr now) := by
        refine ⟨rfl, ?_, by simp [has_ca_extension, host_certificate_body]⟩
        show host_key.public_key ≠ ca_cert.public_key
        rw [h2]
        exact public_key_ne_of_seed_ne host_key ca_key (hk hname)
      refine ⟨⟨Nat.lt_succ_of_lt h1, h2, ?_, ?_, ?_, ?_⟩, ?_⟩
      · rw [FS.read_write_ne _ _ _ _ (FsPath.ne_of_ext (by simp))]
        exact h3
      · rw [FS.read_write_ne _ _ _ _ (FsPath.ne_of_base (fun he => hname he.symm))]
        exact h4
      · intro base b hbase hread
        rw [FS.read_write_ne _ _ _ _ (FsPath.ne_of_ext (by simp))] at hread
        exact h5 base b hbase hread
      · intro base b hbase hread
        by_cases hbq : base = name
        · subst hbq
          rw [FS.read_write_self] at hread
          injection hread with hread
          exact ⟨_, hread.symm, hgood⟩
        · rw [FS.read_write_ne _ _ _ _ (FsPath.ne_of_base hbq)] at hread
          exact h6 base b hbase hread
      · intro c hc _
        injection hc with hc
        rw [← hc]
        exact hgood

theorem write_chain_file_inv (cfg : Config) (ca_key : RSAPrivateKey)
    (ca_cert : Certificate) (fs : FS) (rng : Rng) (base : String)
    (c h : Certificate)
    (hinv : RootInv cfg ca_key ca_cert fs rng) :
    RootInv cfg ca_key ca_cert
      (write_chain_file fs ⟨cfg.output_path, base, FileExt.chainPem⟩ c h) rng := by
  obtain ⟨h1, h2, h3, h4, h5, h6⟩ := hinv
  cases hp : fs.pathExists ⟨cfg.output_path, base, FileExt.chainPem⟩ with
  | true => rw [write_chain_file_present _ _ _ _ hp]; exact ⟨h1, h2, h3, h4, h5, h6⟩
  | false =>
    rw [write_chain_file_absent _ _ _ _ hp]
    refine ⟨h1, h2, ?_, ?_, ?_, ?_⟩
    · rw [FS.read_write_ne _ _ _ _ (FsPath.ne_of_ext (by simp))]; exact h3
    · rw [FS.read_write_ne _ _ _ _ (FsPath.ne_of_ext (by simp))]; exact h4
    · intro base' b hbase hread
      rw [FS.read_write_ne _ _ _ _ (FsPath.ne_of_ext (by simp))] at hread
      exact h5 base' b hbase hread
    · intro base' b hbase hread
      rw [FS.read_write_ne _ _ _ _ (FsPath.ne_of_ext (by simp))] at hread
      exact h6 base' b hbase hread

theorem process_host_inv (cfg : Config) (ca_key : RSAPrivateKey)
    (ca_cert : Certificate) (fs : FS) (rng : Rng) (now : Int) (host : Host)
    (hinv : RootInv cfg ca_key ca_cert fs rng) :
    RootInv cfg ca_key ca_cert
      (process_host cfg ca_key ca_cert fs rng now host).2.1
      (process_host cfg ca_key ca_cert fs rng now host).2.2 ∧
    ∀ name c, (process_host cfg ca_key ca_cert fs rng now host).1
      = Except.ok (name, c) → name ≠ "ca" → good_leaf ca_cert c := by
  unfold process_host
  cases hn : host.names with
  | nil =>
    exact ⟨hinv, fun name c hc => absurd hc (by simp)⟩
  | cons name tl =>
    simp only [List.head?_cons, List.map_cons, List.cons_append]
    rcases hk : generate_or_load_key fs rng ⟨cfg.output_path, name, FileExt.keyPem⟩
      with ⟨rk, fs₁, rng₁⟩
    have step1 := generate_or_load_key_inv cfg ca_key ca_cert fs rng name hinv
    rw [hk] at step1
    cases rk with
    | error e => exact ⟨step1.1, fun name' c hc => absurd hc (by simp)⟩
    | ok host_key =>
      have hseed : name ≠ "ca" → host_key.seed ≠ ca_key.seed :=
        step1.2 host_key rfl
      dsimp only
      rcases hc : generate_or_load_server_certificate cfg fs₁ rng₁
          ⟨cfg.output_path, name, FileExt.certPem⟩ ca_cert ca_key host_key
          (StrOrIP.str (name ++ "." ++ cfg.domain) ::
            (tl.map (fun n => StrOrIP.str (n ++ "." ++ cfg.domain))
              ++ host.ip_addresses.map StrOrIP.ip)) now
        with ⟨rc, fs₂, rng₂⟩
      have step2 := generate_or_load_server_certificate_inv cfg ca_key ca_cert
        fs₁ rng₁ now name (name ++ "." ++ cfg.domain) host_key
        (tl.map (fun n => StrOrIP.str (n ++ "." ++ cfg.domain))
          ++ host.ip_addresses.map StrOrIP.ip) step1.1 hseed
      rw [hc] at step2
      cases rc with
      | error e => exact ⟨step2.1, fun name' c hcc => absurd hcc (by simp)⟩
      | ok host_cert =>
        refine ⟨write_chain_file_inv cfg ca_key ca_cert fs₂ rng₂ name
          ca_cert host_cert step2.1, ?_⟩
        intro name' c hcc hne
        injection hcc with hcc
        injection hcc with hcc₁ hcc₂
        subst hcc₂
        exact step2.2 host_cert rfl (fun h => hne (hcc₁ ▸ h))

theorem main_loop_inv (cfg : Config) (ca_key : RSAPrivateKey)
    (ca_cert : Certificate) (hosts : List Host) (fs : FS) (rng : Rng) (now : Int)
    (hinv : RootInv cfg ca_key ca_cert fs rng) :
    RootInv cfg ca_key ca_cert
      (main_loop cfg ca_key ca_cert hosts fs rng now).2.1
      (main_loop cfg ca_key ca_cert hosts fs rng now).2.2.1 ∧
    ∀ name c, (name, c) ∈ (main_loop cfg ca_key ca_cert hosts fs rng now).2.2.2 →
      name ≠ "ca" → good_leaf ca_cert c := by
  induction hosts generalizing fs rng with
  | nil => exact ⟨hinv, fun name c hc => absurd hc (by simp [main_loop])⟩
  | cons host rest ih =>
    unfold main_loop
    rcases hp : process_host cfg ca_key ca_cert fs rng now host with ⟨r, fs₁, rng₁⟩
    have step := process_host_inv cfg ca_key ca_cert fs rng now host hinv
    rw [hp] at step
    cases r with
    | error e => exact ⟨step.1, fun name c hc => absurd hc (by simp)⟩
    | ok entry =>
      simp only
      rcases hl : main_loop cfg ca_key ca_cert rest fs₁ rng₁ now
        with ⟨r₂, fs₂, rng₂, trace⟩
      have ih' := ih fs₁ rng₁ step.1
      rw [hl] at ih'
      refine ⟨ih'.1, ?_⟩
      intro name c hc hne
      rcases List.mem_cons.mp hc with he | hm
      · exact step.2 name c (by rw [he]) hne
      · exact ih'.2 name c hm hne

/-- The root phase of a run started on an empty directory: it generates
a fresh root key and root certificate, establishing `RootInv`. -/
theorem main_from_empty (cfg : Config) (rng : Rng) (now : Int) :
    main cfg [] rng now =
      main_loop cfg (fresh_key rng)
        (ca_certificate_body cfg (fresh_key rng) (rng.ctr + 1) now)
        cfg.hosts
        (FS.write
          (FS.write [] ⟨cfg.output_path, "ca", FileExt.keyPem⟩
            (private_bytes (fresh_key rng) Encoding.PEM
              PrivateFormat.TraditionalOpenSSL Encryption.NoEncryption))
          ⟨cfg.output_path, "ca", FileExt.certPem⟩
          (serialize_certificate
            (ca_certificate_body cfg (fresh_key rng) (rng.ctr + 1) now)))
        ⟨rng.ctr + 2⟩ now ∧
    RootInv cfg (fresh_key rng)
      (ca_certificate_body cfg (fresh_key rng) (rng.ctr + 1) now)
      (FS.write
        (FS.write [] ⟨cfg.output_path, "ca", FileExt.keyPem⟩
          (private_bytes (fresh_key rng) Encoding.PEM
            PrivateFormat.TraditionalOpenSSL Encryption.NoEncryption))
        ⟨cfg.output_path, "ca", FileExt.certPem⟩
        (serialize_certificate
          (ca_certificate_body cfg (fresh_key rng) (rng.ctr + 1) now)))
      ⟨rng.ctr + 2⟩ := by
  have hkeyread : FS.read [] (⟨cfg.output_path, "ca", FileExt.keyPem⟩ : FsPath) = none := rfl
  have hfs₁ := generate_or_load_key_absent [] rng
    ⟨cfg.output_path, "ca", FileExt.keyPem⟩ hkeyread
  have hcertread :
      (FS.write [] ⟨cfg.output_path, "ca", FileExt.keyPem⟩
        (private_bytes (fresh_key rng) Encoding.PEM
          PrivateFormat.TraditionalOpenSSL Encryption.NoEncryption)).read
        ⟨cfg.output_path, "ca", FileExt.certPem⟩ = none := by
    rw [FS.read_write_ne _ _ _ _ (FsPath.ne_of_ext (by simp))]
    exact FS.read_nil _
  constructor
  · unfold main
    rw [hfs₁]
    simp only
    rw [generate_or_load_ca_certificate_absent cfg _ ⟨rng.ctr + 1⟩
      ⟨cfg.output_path, "ca", FileExt.certPem⟩ (fresh_key rng) now hcertread]
    rfl
  · refine ⟨Nat.lt_add_of_pos_right (by norm_num), rfl, ?_, ?_, ?_, ?_⟩
    · rw [FS.read_write_ne _ _ _ _ (FsPath.ne_of_ext (by simp))]
      exact FS.read_write_self _ _ _
    · exact FS.read_write_self _ _ _
    · intro base b hbase hread
      rw [FS.read_write_ne _ _ _ _ (FsPath.ne_of_ext (by simp)),
        FS.read_write_ne _ _ _ _ (FsPath.ne_of_base hbase)] at hread
      exact absurd hread (by simp [FS.read_nil])
    · intro base b hbase hread
      rw [FS.read_write_ne _ _ _ _ (FsPath.ne_of_base hbase),
        FS.read_write_ne _ _ _ _ (FsPath.ne_of_base hbase)] at hread
      exact absurd hread (by simp [FS.read_nil])

/-! ## Claims -/

/-- C1: for every artifact kind (key, root certificate, leaf certificate,
chain file), an existing target path makes the operation a pass-through
that performs no write; a fresh generation makes the path present, and
invoking the same generation again with the same path and inputs returns
the identical artifact with the file system unchanged — Absent
transitions to Present at most once and Present is terminal. -/
theorem artifact_generation_idempotent :
    (∀ fs rng p r fs' rng', fs.pathExists p = true →
      generate_or_load_key fs rng p = (r, fs', rng') →
      fs' = fs ∧ rng' = rng) ∧
    (∀ fs rng rng₂ p k fs₁ rng₁, fs.pathExists p = false →
      generate_or_load_key fs rng p = (Except.ok k, fs₁, rng₁) →
      fs₁.pathExists p = true ∧
      generate_or_load_key fs₁ rng₂ p = (Except.ok k, fs₁, rng₂)) ∧
    (∀ cfg fs rng p key now r fs' rng', fs.pathExists p = true →
      generate_or_load_ca_certificate cfg fs rng p key now = (r, fs', rng') →
      fs' = fs ∧ rng' = rng) ∧
    (∀ cfg fs rng rng₂ p key now c fs₁ rng₁, fs.pathExists p = false →
      generate_or_load_ca_certificate cfg fs rng p key now = (Except.ok c, fs₁, rng₁) →
      fs₁.pathExists p = true ∧
      generate_or_load_ca_certificate cfg fs₁ rng₂ p key now = (Except.ok c, fs₁, rng₂)) ∧
    (∀ cfg fs rng p rc rk hk names now r fs' rng', fs.pathExists p = true →
      generate_or_load_server_certificate cfg fs rng p rc rk hk names now
        = (r, fs', rng') →
      fs' = fs ∧ rng' = rng) ∧
    (∀ cfg fs rng rng₂ p rc rk hk names now c fs₁ rng₁, fs.pathExists p = false →
      generate_or_load_server_certificate cfg fs rng p rc rk hk names now
        = (Except.ok c, fs₁, rng₁) →
      fs₁.pathExists p = true ∧
      generate_or_load_server_certificate cfg fs₁ rng₂ p rc rk hk names now
        = (Except.ok c, fs₁, rng₂)) ∧
    (∀ fs p c h, fs.pathExists p = true → write_chain_file fs p c h = fs) ∧
    (∀ fs p c h, fs.pathExists p = false →
      (write_chain_file fs p c h).pathExists p = true ∧
      write_chain_file (write_chain_file fs p c h) p c h = write_chain_file fs p c h) := by
  refine ⟨?_, ?_, ?_, ?_, ?_, ?_, ?_, ?_⟩
  · intro fs rng p r fs' rng' hp hrun
    have h2 := generate_or_load_key_present fs rng p hp
    rw [hrun] at h2
    exact ⟨congrArg Prod.fst h2, congrArg Prod.snd h2⟩
  · intro fs rng rng₂ p k fs₁ rng₁ hp hrun
    rw [generate_or_load_key_absent fs rng p (FS.pathExists_false fs p hp)] at hrun
    injection hrun with h1 h23
    injection h23 with h2 h3
    injection h1 with h1
    subst h1; subst h2
    refine ⟨FS.pathExists_write_self fs p _, ?_⟩
    exact generate_or_load_key_rsa _ rng₂ p _ PrivateFormat.TraditionalOpenSSL
      (FS.read_write_self fs p _)
  · intro cfg fs rng p key now r fs' rng' hp hrun
    have h2 := generate_or_load_ca_certificate_present cfg fs rng p key now hp
    rw [hrun] at h2
    exact ⟨congrArg Prod.fst h2, congrArg Prod.snd h2⟩
  · intro cfg fs rng rng₂ p key now c fs₁ rng₁ hp hrun
    rw [generate_or_load_ca_certificate_absent cfg fs rng p key now
      (FS.pathExists_false fs p hp)] at hrun
    injection hrun with h1 h23
    injection h23 with h2 h3
    injection h1 with h1
    subst h1; subst h2
    refine ⟨FS.pathExists_write_self fs p _, ?_⟩
    exact generate_or_load_ca_certificate_stored cfg _ rng₂ p key now _
      (FS.read_write_self fs p _)
  · intro cfg fs rng p rc rk hk names now r fs' rng' hp hrun
    have h2 := generate_or_load_server_certificate_present cfg fs rng p rc rk hk
      names now hp
    rw [hrun] at h2
    exact ⟨congrArg Prod.fst h2, congrArg Prod.snd h2⟩
  · intro cfg fs rng rng₂ p rc rk hk names now c fs₁ rng₁ hp hrun
    have hr := FS.pathExists_false fs p hp
    match names with
    | [] =>
      rw [show generate_or_load_server_certificate cfg fs rng p rc rk hk [] now
          = (Except.error Err.indexError, fs, rng) from by
        simp [generate_or_load_server_certificate, hr]] at hrun
      exact absurd hrun (by simp)
    | StrOrIP.ip a :: rest =>
      rw [generate_or_load_server_certificate_ip_first cfg fs rng p rc rk hk a
        rest now hr] at hrun
      exact absurd hrun (by simp)
    | StrOrIP.str s :: rest =>
      rw [generate_or_load_server_certificate_absent cfg fs rng p rc rk hk s
        rest now hr] at hrun
      injection hrun with h1 h23
      injection h23 with h2 h3
      injection h1 with h1
      subst h1; subst h2
      refine ⟨FS.pathExists_write_self fs p _, ?_⟩
      exact generate_or_load_server_certificate_stored cfg _ rng₂ p rc rk hk _ now _
        (FS.read_write_self fs p _)
  · intro fs p c h hp
    exact write_chain_file_present fs p c h hp
  · intro fs p c h hp
    rw [write_chain_file_absent fs p c h hp]
    refine ⟨FS.pathExists_write_self fs p _, ?_⟩
    exact write_chain_file_present _ p c h (FS.pathExists_write_self fs p _)

/-- Witness for C1: each conjunct applied at a concrete input. -/
theorem artifact_generation_idempotent_witness :
    (fsKeyW = fsKeyW ∧ (⟨5⟩ : Rng) = ⟨5⟩) ∧
    (fsKeyGen.pathExists pKeyW = true ∧
      generate_or_load_key fsKeyGen ⟨9⟩ pKeyW
        = (Except.ok (fresh_key ⟨0⟩), fsKeyGen, ⟨9⟩)) ∧
    (fsCertW = fsCertW ∧ (⟨5⟩ : Rng) = ⟨5⟩) ∧
    (fsCertGen.pathExists pCertW = true ∧
      generate_or_load_ca_certificate cfgFoo fsCertGen ⟨9⟩ pCertW keyW 0
        = (Except.ok caGenW, fsCertGen, ⟨9⟩)) ∧
    (fsCertW = fsCertW ∧ (⟨5⟩ : Rng) = ⟨5⟩) ∧
    (fsHostGen.pathExists pCertW = true ∧
      generate_or_load_server_certificate cfgFoo fsHostGen ⟨9⟩ pCertW certW keyW
        keyW [StrOrIP.str "w.example.com"] 0 = (Except.ok hostGenW, fsHostGen, ⟨9⟩)) ∧
    (write_chain_file fsChainGen pChainW certW hostGenW = fsChainGen) ∧
    ((write_chain_file [] pChainW certW hostGenW).pathExists pChainW = true ∧
      write_chain_file (write_chain_file [] pChainW certW hostGenW) pChainW certW
        hostGenW = write_chain_file [] pChainW certW hostGenW) :=
  ⟨artifact_generation_idempotent.1 fsKeyW ⟨5⟩ pKeyW (Except.ok keyW) fsKeyW ⟨5⟩
      (by decide) rfl,
   artifact_generation_idempotent.2.1 [] ⟨0⟩ ⟨9⟩ pKeyW (fresh_key ⟨0⟩) fsKeyGen ⟨1⟩
      (by decide) rfl,
   artifact_generation_idempotent.2.2.1 cfgFoo fsCertW ⟨5⟩ pCertW keyW 0
      (Except.ok certW) fsCertW ⟨5⟩ (by decide) rfl,
   artifact_generation_idempotent.2.2.2.1 cfgFoo [] ⟨0⟩ ⟨9⟩ pCertW keyW 0 caGenW
      fsCertGen ⟨1⟩ (by decide) rfl,
   artifact_generation_idempotent.2.2.2.2.1 cfgFoo fsCertW ⟨5⟩ pCertW certW keyW
      keyW [StrOrIP.str "w.example.com"] 0 (Except.ok certW) fsCertW ⟨5⟩
      (by decide) rfl,
   artifact_generation_idempotent.2.2.2.2.2.1 cfgFoo [] ⟨0⟩ ⟨9⟩ pCertW certW keyW
      keyW [StrOrIP.str "w.example.com"] 0 hostGenW fsHostGen ⟨1⟩
      (by decide) rfl,
   artifact_generation_idempotent.2.2.2.2.2.2.1 fsChainGen pChainW certW hostGenW
      (by decide),
   artifact_generation_idempotent.2.2.2.2.2.2.2 [] pChainW certW hostGenW
      (by decide)⟩

/-- C3 (counterexample): when the certificate path already exists, an
invocation whose first name is an IP address does not fail — the
exists-check precedes the validation, so the stored certificate is
returned with no error raised. -/
theorem server_ip_first_present_counterexample :
    fsCertW.pathExists pCertW = true ∧
    (generate_or_load_server_certificate cfgFoo fsCertW ⟨0⟩ pCertW certW keyW keyW
      [StrOrIP.ip (IPAddr.v4 10 0 0 1)] 0).1 = Except.ok certW ∧
    ¬ (generate_or_load_server_certificate cfgFoo fsCertW ⟨0⟩ pCertW certW keyW keyW
      [StrOrIP.ip (IPAddr.v4 10 0 0 1)] 0).1
        = Except.error (Err.valueError "First name must be a string not an IP address") :=
  ⟨by decide, rfl, fun h => Except.noConfusion h⟩

/-- C3 (amended): for every invocation of leaf-certificate issuance
whose certificate path is absent and where `names[0]` is not a domain
string, the operation fails with `ValueError` ("InvalidInput") and the
file system is returned unchanged — no file is written. -/
theorem server_certificate_ip_first_fails (cfg : Config) (fs : FS) (rng : Rng)
    (p : FsPath) (root_cert : Certificate) (root_key host_key : RSAPrivateKey)
    (a : IPAddr) (rest : List StrOrIP) (now : Int)
    (hp : fs.pathExists p = false) :
    generate_or_load_server_certificate cfg fs rng p root_cert root_key host_key
      (StrOrIP.ip a :: rest) now
      = (Except.error (Err.valueError "First name must be a string not an IP address"),
         fs, rng) :=
  generate_or_load_server_certificate_ip_first cfg fs rng p root_cert root_key
    host_key a rest now (FS.pathExists_false fs p hp)

/-- Witness for C3 (amended) at a concrete input. -/
theorem server_certificate_ip_first_fails_witness :
    FS.pathExists [] pCertW = false ∧
    generate_or_load_server_certificate cfgFoo [] ⟨0⟩ pCertW certW keyW keyW
      [StrOrIP.ip (IPAddr.v4 10 0 0 1)] 0
      = (Except.error (Err.valueError "First name must be a string not an IP address"),
         [], ⟨0⟩) :=
  ⟨by decide, server_certificate_ip_first_fails cfgFoo [] ⟨0⟩ pCertW certW keyW
    keyW (IPAddr.v4 10 0 0 1) [] 0 (by decide)⟩

/-- C5: every freshly generated root certificate is self-signed with
subject equal to issuer, common-name "<organization> CA", exactly the
three extensions BasicConstraints(ca, no path length, critical),
KeyUsage(digitalSignature, keyCertSign, crlSign only, critical) and a
non-critical SubjectKeyIdentifier of the public key; it is signed with
SHA-256 by the root key and verifies against its own public key. -/
theorem ca_certificate_fresh_shape (cfg : Config) (fs : FS) (rng : Rng)
    (p : FsPath) (ca_key : RSAPrivateKey) (now : Int) (c : Certificate)
    (fs' : FS) (rng' : Rng)
    (hp : fs.pathExists p = false)
    (hrun : generate_or_load_ca_certificate cfg fs rng p ca_key now
      = (Except.ok c, fs', rng')) :
    c.subject = c.issuer ∧
    c.subject.common_name = cfg.x509_name.organization ++ " CA" ∧
    c.public_key = ca_key.public_key ∧
    c.extensions =
      [⟨ExtensionValue.basicConstraints true none, true⟩,
       ⟨ExtensionValue.keyUsage
          ⟨true, false, false, false, false, true, true, false, false⟩, true⟩,
       ⟨ExtensionValue.subjectKeyIdentifier c.public_key, false⟩] ∧
    c.signed_with = ca_key ∧
    c.signature_hash = HashAlg.sha256 ∧
    c.signatureVerifies c.public_key := by
  rw [generate_or_load_ca_certificate_absent cfg fs rng p ca_key now
    (FS.pathExists_false fs p hp)] at hrun
  injection hrun with h1 h23
  injection h1 with h1
  subst h1
  exact ⟨rfl, rfl, rfl, rfl, rfl, rfl, rfl⟩

/-- Witness for C5 at a concrete input. -/
theorem ca_certificate_fresh_shape_witness :
    caGenW.subject = caGenW.issuer ∧
    caGenW.subject.common_name = cfgFoo.x509_name.organization ++ " CA" ∧
    caGenW.public_key = keyW.public_key ∧
    caGenW.extensions =
      [⟨ExtensionValue.basicConstraints true none, true⟩,
       ⟨ExtensionValue.keyUsage
          ⟨true, false, false, false, false, true, true, false, false⟩, true⟩,
       ⟨ExtensionValue.subjectKeyIdentifier caGenW.public_key, false⟩] ∧
    caGenW.signed_with = keyW ∧
    caGenW.signature_hash = HashAlg.sha256 ∧
    caGenW.signatureVerifies caGenW.public_key :=
  ca_certificate_fresh_shape cfgFoo [] ⟨0⟩ pCertW keyW 0 caGenW fsCertGen ⟨1⟩
    (by decide) rfl

/-- C6: a freshly generated root certificate's validity span is at most
825 days and a freshly issued leaf certificate's span is at most 398
days; every freshly generated certificate satisfies
notBefore ≤ generation time < notAfter (times in days). -/
theorem certificate_validity_bounds :
    (∀ cfg fs rng p key now c fs' rng', fs.pathExists p = false →
      generate_or_load_ca_certificate cfg fs rng p key now
        = (Except.ok c, fs', rng') →
      c.not_valid_after - c.not_valid_before ≤ 825 ∧
      c.not_valid_before ≤ now ∧ now < c.not_valid_after) ∧
    (∀ cfg fs rng p rc rk hk names now c fs' rng', fs.pathExists p = false →
      generate_or_load_server_certificate cfg fs rng p rc rk hk names now
        = (Except.ok c, fs', rng') →
      c.not_valid_after - c.not_valid_before ≤ 398 ∧
      c.not_valid_before ≤ now ∧ now < c.not_valid_after) := by
  constructor
  · intro cfg fs rng p key now c fs' rng' hp hrun
    rw [generate_or_load_ca_certificate_absent cfg fs rng p key now
      (FS.pathExists_false fs p hp)] at hrun
    injection hrun with h1 h23
    injection h1 with h1
    subst h1
    refine ⟨?_, ?_, ?_⟩ <;> simp [ca_certificate_body]
  · intro cfg fs rng p rc rk hk names now c fs' rng' hp hrun
    have hr := FS.pathExists_false fs p hp
    match names with
    | [] =>
      rw [show generate_or_load_server_certificate cfg fs rng p rc rk hk [] now
          = (Except.error Err.indexError, fs, rng) from by
        simp [generate_or_load_server_certificate, hr]] at hrun
      exact absurd hrun (by simp)
    | StrOrIP.ip a :: rest =>
      rw [generate_or_load_server_certificate_ip_first cfg fs rng p rc rk hk a
        rest now hr] at hrun
      exact absurd hrun (by simp)
    | StrOrIP.str s :: rest =>
      rw [generate_or_load_server_certificate_absent cfg fs rng p rc rk hk s
        rest now hr] at hrun
      injection hrun with h1 h23
      injection h1 with h1
      subst h1
      refine ⟨?_, ?_, ?_⟩ <;> simp [host_certificate_body]

/-- Witness for C6 at concrete inputs. -/
theorem certificate_validity_bounds_witness :
    (caGenW.not_valid_after - caGenW.not_valid_before ≤ 825 ∧
      caGenW.not_valid_before ≤ 0 ∧ (0 : Int) < caGenW.not_valid_after) ∧
    (hostGenW.not_valid_after - hostGenW.not_valid_before ≤ 398 ∧
      hostGenW.not_valid_before ≤ 0 ∧ (0 : Int) < hostGenW.not_valid_after) :=
  ⟨certificate_validity_bounds.1 cfgFoo [] ⟨0⟩ pCertW keyW 0 caGenW fsCertGen ⟨1⟩
      (by decide) rfl,
   certificate_validity_bounds.2 cfgFoo [] ⟨0⟩ pCertW certW keyW keyW
      [StrOrIP.str "w.example.com"] 0 hostGenW fsHostGen ⟨1⟩ (by decide) rfl⟩

/-- C7: a chain file written to an absent path holds exactly the root
certificate's encoded bytes immediately followed by the leaf
certificate's encoded bytes; a present chain path is never rewritten,
with any certificates; and a full run of the orchestrator leaves the
content of every pre-existing file unchanged. -/
theorem chain_composition :
    (∀ fs p r l, fs.pathExists p = false →
      (write_chain_file fs p r l).read p
        = some (serialize_certificate r ++ serialize_certificate l)) ∧
    (∀ fs p r l, fs.pathExists p = true → write_chain_file fs p r l = fs) ∧
    (∀ cfg fs rng now q b, fs.read q = some b →
      (main cfg fs rng now).2.1.read q = some b) := by
  refine ⟨?_, ?_, ?_⟩
  · intro fs p r l hp
    rw [write_chain_file_absent fs p r l hp]
    exact FS.read_write_self fs p _
  · intro fs p r l hp
    exact write_chain_file_present fs p r l hp
  · intro cfg fs rng now q b hq
    exact main_preserves cfg fs rng now q b hq

/-- Witness for C7 at concrete inputs. -/
theorem chain_composition_witness :
    ((write_chain_file [] pChainW certW hostGenW).read pChainW
      = some (serialize_certificate certW ++ serialize_certificate hostGenW)) ∧
    (write_chain_file fsChainGen pChainW certW caGenW = fsChainGen) ∧
    ((main cfgFoo fsChainGen ⟨0⟩ 0).2.1.read pChainW
      = some (serialize_certificate certW ++ serialize_certificate hostGenW)) :=
  ⟨chain_composition.1 [] pChainW certW hostGenW (by decide),
   chain_composition.2.1 fsChainGen pChainW certW caGenW (by decide),
   chain_composition.2.2 cfgFoo fsChainGen ⟨0⟩ 0 pChainW _ (by decide)⟩

/-- C8: every freshly generated key is RSA with modulus size 2048 and
public exponent 65537, persisted unencrypted in PEM encoding, and the
persisted bytes parse back to the returned key. -/
theorem key_generation_shape (fs : FS) (rng : Rng) (p : FsPath)
    (k : RSAPrivateKey) (fs' : FS) (rng' : Rng)
    (hp : fs.pathExists p = false)
    (hrun : generate_or_load_key fs rng p = (Except.ok k, fs', rng')) :
    k.key_size = 2048 ∧ k.public_exponent = 65537 ∧
    fs' = fs.write p (private_bytes k Encoding.PEM
      PrivateFormat.TraditionalOpenSSL Encryption.NoEncryption) ∧
    fs'.read p = some (private_bytes k Encoding.PEM
      PrivateFormat.TraditionalOpenSSL Encryption.NoEncryption) ∧
    load_pem_private_key (private_bytes k Encoding.PEM
      PrivateFormat.TraditionalOpenSSL Encryption.NoEncryption)
      = Except.ok (LoadedPrivateKey.rsa k) := by
  rw [generate_or_load_key_absent fs rng p (FS.pathExists_false fs p hp)] at hrun
  injection hrun with h1 h23
  injection h23 with h2 h3
  injection h1 with h1
  subst h1
  subst h2
  exact ⟨rfl, rfl, rfl, FS.read_write_self fs p _, rfl⟩

/-- Witness for C8 at a concrete input. -/
theorem key_generation_shape_witness :
    (fresh_key ⟨0⟩).key_size = 2048 ∧ (fresh_key ⟨0⟩).public_exponent = 65537 ∧
    fsKeyGen = FS.write [] pKeyW (private_bytes (fresh_key ⟨0⟩) Encoding.PEM
      PrivateFormat.TraditionalOpenSSL Encryption.NoEncryption) ∧
    fsKeyGen.read pKeyW = some (private_bytes (fresh_key ⟨0⟩) Encoding.PEM
      PrivateFormat.TraditionalOpenSSL Encryption.NoEncryption) ∧
    load_pem_private_key (private_bytes (fresh_key ⟨0⟩) Encoding.PEM
      PrivateFormat.TraditionalOpenSSL Encryption.NoEncryption)
      = Except.ok (LoadedPrivateKey.rsa (fresh_key ⟨0⟩)) :=
  key_generation_shape [] ⟨0⟩ pKeyW (fresh_key ⟨0⟩) fsKeyGen ⟨1⟩ (by decide) rfl

/-- C9: loading an existing key file whose stored unencrypted key is not
RSA fails with `ValueError` ("InvalidKeyType"); a stored RSA key of any
modulus size or exponent is returned unchanged with no side effect — no
re-validation of size or exponent happens on load. -/
theorem key_load_validation :
    (∀ fs rng p i fmt, fs.read p = some [Chunk.privateKeyBytes
        (LoadedPrivateKey.ec i) Encoding.PEM fmt Encryption.NoEncryption] →
      generate_or_load_key fs rng p
        = (Except.error (Err.valueError "Invalid key type"), fs, rng)) ∧
    (∀ fs rng p k fmt, fs.read p = some [Chunk.privateKeyBytes
        (LoadedPrivateKey.rsa k) Encoding.PEM fmt Encryption.NoEncryption] →
      generate_or_load_key fs rng p = (Except.ok k, fs, rng)) := by
  constructor
  · intro fs rng p i fmt h
    exact generate_or_load_key_non_rsa fs rng p i fmt h
  · intro fs rng p k fmt h
    exact generate_or_load_key_rsa fs rng p k fmt h

/-- Witness for C9 at concrete inputs, including a 1024-bit RSA key with
exponent 3 that is accepted unchanged. -/
theorem key_load_validation_witness :
    generate_or_load_key fsECKey ⟨0⟩ pKeyW
      = (Except.error (Err.valueError "Invalid key type"), fsECKey, ⟨0⟩) ∧
    generate_or_load_key fsWeakKey ⟨0⟩ pKeyW = (Except.ok keyWeak, fsWeakKey, ⟨0⟩) :=
  ⟨key_load_validation.1 fsECKey ⟨0⟩ pKeyW 3 PrivateFormat.TraditionalOpenSSL
      (by decide),
   key_load_validation.2 fsWeakKey ⟨0⟩ pKeyW keyWeak
      PrivateFormat.TraditionalOpenSSL (by decide)⟩

/-- C10: a freshly issued leaf certificate carries exactly one
extension, the non-critical SubjectAlternativeName — no
BasicConstraints, KeyUsage or SubjectKeyIdentifier — and its SAN entries
are the input names in order, strings mapped to DNSName and IP addresses
to IPAddress. -/
theorem leaf_extensions_exact (cfg : Config) (fs : FS) (rng : Rng) (p : FsPath)
    (root_cert : Certificate) (root_key host_key : RSAPrivateKey)
    (names : List StrOrIP) (now : Int) (c : Certificate) (fs' : FS) (rng' : Rng)
    (hp : fs.pathExists p = false)
    (hrun : generate_or_load_server_certificate cfg fs rng p root_cert root_key
      host_key names now = (Except.ok c, fs', rng')) :
    c.extensions =
      [⟨ExtensionValue.subjectAlternativeName (names.map to_x509_name), false⟩] ∧
    (∀ s, to_x509_name (StrOrIP.str s) = GeneralName.dnsName s) ∧
    (∀ a, to_x509_name (StrOrIP.ip a) = GeneralName.ipAddress a) ∧
    has_ca_extension c = false := by
  have hr := FS.pathExists_false fs p hp
  match names with
  | [] =>
    rw [show generate_or_load_server_certificate cfg fs rng p root_cert root_key
        host_key [] now = (Except.error Err.indexError, fs, rng) from by
      simp [generate_or_load_server_certificate, hr]] at hrun
    exact absurd hrun (by simp)
  | StrOrIP.ip a :: rest =>
    rw [generate_or_load_server_certificate_ip_first cfg fs rng p root_cert
      root_key host_key a rest now hr] at hrun
    exact absurd hrun (by simp)
  | StrOrIP.str s :: rest =>
    rw [generate_or_load_server_certificate_absent cfg fs rng p root_cert
      root_key host_key s rest now hr] at hrun
    injection hrun with h1 h23
    injection h1 with h1
    subst h1
    exact ⟨rfl, fun s => rfl, fun a => rfl, rfl⟩

/-- Witness for C10 at a concrete input. -/
theorem leaf_extensions_exact_witness :
    hostGenW.extensions =
      [⟨ExtensionValue.subjectAlternativeName
          ([StrOrIP.str "w.example.com"].map to_x509_name), false⟩] ∧
    (∀ s, to_x509_name (StrOrIP.str s) = GeneralName.dnsName s) ∧
    (∀ a, to_x509_name (StrOrIP.ip a) = GeneralName.ipAddress a) ∧
    has_ca_extension hostGenW = false :=
  leaf_extensions_exact cfgFoo [] ⟨0⟩ pCertW certW keyW keyW
    [StrOrIP.str "w.example.com"] 0 hostGenW fsHostGen ⟨1⟩ (by decide) rfl

/-- C2 (counterexample): in the spec's exact scenario the freshly issued
leaf certificate's subject common-name is "foo.example.com" — `main`
passes the domain-qualified names to issuance and the subject is built
from `names[0]` — not "foo" as the claim states. -/
theorem leaf_common_name_counterexample :
    fooRun.2.2.2.length = 1 ∧
    fooLeaf.subject.common_name = "foo.example.com" ∧
    ¬ fooLeaf.subject.common_name = "foo" := by
  refine ⟨rfl, rfl, ?_⟩
  decide

/-- C2 (amended): given a root CA with organization "Home" and the host
`{names:["foo","foo-alt"], ipAddresses:["10.0.0.5"]}` under domain
"example.com", the freshly issued leaf certificate has subject
common-name "foo.example.com"; its SAN extension holds exactly DNSName
"foo.example.com", DNSName "foo-alt.example.com" and IPAddress 10.0.0.5,
in that order; its issuer equals the root certificate's subject; and its
signature verifies against the root's public key. -/
theorem leaf_linkage_amended :
    fooRun.2.2.2.length = 1 ∧
    fooLeaf.subject.common_name = "foo.example.com" ∧
    fooLeaf.extensions =
      [⟨ExtensionValue.subjectAlternativeName
          [GeneralName.dnsName "foo.example.com",
           GeneralName.dnsName "foo-alt.example.com",
           GeneralName.ipAddress (IPAddr.v4 10 0 0 5)], false⟩] ∧
    fooRoot.subject.common_name = "Home CA" ∧
    fooLeaf.issuer = fooRoot.subject ∧
    fooLeaf.signatureVerifies fooRoot.public_key := by
  exact ⟨rfl, rfl, rfl, rfl, rfl, rfl⟩

/-- C4 (counterexample): for a host whose primary name is "ca", the
certificate the run produces for it is the stored root certificate
itself — its public key equals the root's public key and it carries the
CA extension, contradicting the claim at exactly the collision case the
claim includes. -/
theorem host_named_ca_counterexample :
    caHostRun.2.2.2 = [("ca", caHostLeaf)] ∧
    caHostLeaf = caHostRoot ∧
    caHostLeaf.public_key = caHostRoot.public_key ∧
    has_ca_extension caHostLeaf = true := by
  exact ⟨rfl, rfl, rfl, rfl⟩

/-- C4 (amended): in a run of the orchestrator from an empty output
directory, every host certificate the run produces for a host whose
primary name is not "ca" has issuer equal to the root certificate's
subject, a public key different from the root's, and no CA extension. -/
theorem run_leaf_invariants_amended (cfg : Config) (rng : Rng) (now : Int)
    (name : String) (c : Certificate)
    (hmem : (name, c) ∈ (main cfg [] rng now).2.2.2) (hname : name ≠ "ca") :
    ∃ root : Certificate,
      (main cfg [] rng now).2.1.read ⟨cfg.output_path, "ca", FileExt.certPem⟩
        = some (serialize_certificate root) ∧
      c.issuer = root.subject ∧
      c.public_key ≠ root.public_key ∧
      has_ca_extension c = false := by
  obtain ⟨heq, hinv⟩ := main_from_empty cfg rng now
  rw [heq] at hmem ⊢
  have h := main_loop_inv cfg (fresh_key rng)
    (ca_certificate_body cfg (fresh_key rng) (rng.ctr + 1) now) cfg.hosts _ _ now hinv
  obtain ⟨good₁, good₂, good₃⟩ := h.2 name c hmem hname
  exact ⟨ca_certificate_body cfg (fresh_key rng) (rng.ctr + 1) now,
    h.1.2.2.2.1, good₁, good₂, good₃⟩

/-- Witness for C4 (amended) at the concrete leaf-linkage run. -/
theorem run_leaf_invariants_amended_witness :
    ("foo", fooLeaf) ∈ (main cfgFoo [] ⟨0⟩ 0).2.2.2 ∧ "foo" ≠ "ca" ∧
    ∃ root : Certificate,
      (main cfgFoo [] ⟨0⟩ 0).2.1.read ⟨cfgFoo.output_path, "ca", FileExt.certPem⟩
        = some (serialize_certificate root) ∧
      fooLeaf.issuer = root.subject ∧
      fooLeaf.public_key ≠ root.public_key ∧
      has_ca_extension fooLeaf = false :=
  ⟨by decide, by decide,
   run_leaf_invariants_amended cfgFoo ⟨0⟩ 0 "foo" fooLeaf (by decide) (by decide)⟩

end HomeCA
